import Mathlib

/-!
Verification of the MoneyTracker repository: a React client
(src/unnamed/part_000, the App component) and an Express API service
(src/api/index.js) over one transaction collection backed by a document
store.  Strings are embedded as lists of characters, JSON objects as
association lists, and the document store (the Mongoose model file
api/models/Transaction is external to these sources) is modelled from the
specification.
-/

namespace MoneyTracker

/-- Strings of the embedded program, as lists of characters. -/
abbrev JStr := List Char

/- ------------------------------------------------------------------ -/
/- Client UI: the App component of src/unnamed/part_000               -/
/- ------------------------------------------------------------------ -/

/-- The JSON payload the client posts to the collection endpoint
(the body built in addNewTransaction, source lines 95-103). -/
structure PostPayload where
  price : JStr
  name : JStr
  description : JStr
  dateTime : JStr
deriving DecidableEq

/-- Client submit handler addNewTransaction (source lines 87-103):
price is the first element of name.split(" "), that is the prefix of the
raw name input before the first space character (the whole input when no
space occurs); the posted name is name.substring(price.length + 1), the
rest of the input after dropping the token and one further character. -/
def addNewTransaction (name description dateTime : JStr) : PostPayload :=
  let price := name.takeWhile (fun c => c != ' ')
  { price := price
    name := name.drop (price.length + 1)
    description := description
    dateTime := dateTime }

/-- The remainder of a string after its first space character
(empty when the string has no space).  This is the value the
specification calls the remainder after the first space. -/
def afterFirstSpace : JStr → JStr
  | [] => []
  | c :: rest => if c = ' ' then rest else afterFirstSpace rest

/-- A decimal digit. -/
def isDigitCh (c : Char) : Bool := '0' ≤ c && c ≤ '9'

/-- Numeric value of a list of decimal digits. -/
def digitsVal (l : JStr) : Nat :=
  l.foldl (fun a c => 10 * a + (c.toNat - '0'.toNat)) 0

/-- An unsigned numeric literal: a nonempty run of digits, optionally
followed by a point and a nonempty run of digits. -/
def unsignedLit (s : JStr) : Bool :=
  let ip := s.takeWhile isDigitCh
  let rest := s.drop ip.length
  if ip.isEmpty then false
  else
    match rest with
    | [] => true
    | '.' :: frac => !frac.isEmpty && frac.all isDigitCh
    | _ => false

/-- Value of an unsigned numeric literal, as a rational number. -/
def unsignedVal (s : JStr) : ℚ :=
  let ip := s.takeWhile isDigitCh
  let rest := s.drop ip.length
  match rest with
  | '.' :: frac => (digitsVal ip : ℚ) + (digitsVal frac : ℚ) / ((10 : ℚ) ^ frac.length)
  | _ => (digitsVal ip : ℚ)

/-- A valid numeric literal: an optional sign followed by an unsigned
numeric literal. -/
def isNumericLit (s : JStr) : Bool :=
  match s with
  | '-' :: rest => unsignedLit rest
  | '+' :: rest => unsignedLit rest
  | _ => unsignedLit s

/-- The signed numeric value a valid numeric literal denotes. -/
def numericVal (s : JStr) : ℚ :=
  match s with
  | '-' :: rest => -(unsignedVal rest)
  | '+' :: rest => unsignedVal rest
  | _ => unsignedVal s

/- Helper lemmas about the split. -/

/-- Dropping the space-free leading token plus one character is exactly
the remainder after the first space. -/
theorem drop_token_succ_eq_afterFirstSpace (s : JStr) :
    s.drop ((s.takeWhile (fun c => c != ' ')).length + 1) = afterFirstSpace s := by
  induction s with
  | nil => rfl
  | cons c rest ih =>
    by_cases hc : c = ' '
    · subst hc
      simp [List.takeWhile, afterFirstSpace]
    · have hb : (c != ' ') = true := by
        simp [bne_iff_ne, hc]
      simp [List.takeWhile, hb, afterFirstSpace, hc, List.drop_succ_cons, ih]

/-- When the input has no space the leading token is the whole input. -/
theorem token_eq_self_of_no_space (s : JStr) (h : ' ' ∉ s) :
    s.takeWhile (fun c => c != ' ') = s := by
  induction s with
  | nil => rfl
  | cons c rest ih =>
    have hc : c ≠ ' ' := fun hce => h (hce ▸ List.mem_cons_self c rest)
    have hb : (c != ' ') = true := by simp [bne_iff_ne, hc]
    have hr : ' ' ∉ rest := fun hm => h (List.mem_cons_of_mem c hm)
    simp [List.takeWhile, hb, ih hr]

/-- When the input contains a space, token + space + remainder
reassembles the input. -/
theorem token_space_remainder (s : JStr) (h : ' ' ∈ s) :
    s.takeWhile (fun c => c != ' ') ++ ' ' :: afterFirstSpace s = s := by
  induction s with
  | nil => cases h
  | cons c rest ih =>
    by_cases hc : c = ' '
    · subst hc
      simp [List.takeWhile, afterFirstSpace]
    · have hb : (c != ' ') = true := by simp [bne_iff_ne, hc]
      have hr : ' ' ∈ rest := by
        cases List.mem_cons.mp h with
        | inl hx => exact absurd hx.symm hc
        | inr hx => exact hx
      simp [List.takeWhile, hb, afterFirstSpace, hc, ih hr]

/- ------------------------------------------------------------------ -/
/- Client view state and transitions                                  -/
/- ------------------------------------------------------------------ -/

/-- A transaction as the client renders it: the stored fields plus the
store identifier found on fetched records. -/
structure ClientTransaction where
  mongoId : Nat
  name : JStr
  description : JStr
  dateTime : JStr
  price : Int
deriving DecidableEq

/-- The App component state: the three editable form fields and the
fetched transactions list (source lines 51-54). -/
structure AppState where
  name : JStr
  description : JStr
  dateTime : JStr
  transactions : List ClientTransaction
deriving DecidableEq

/-- The submit-complete transition: once the POST response has arrived
the handler calls setName(""), setDateTime(""), setDescription("")
(source lines 104-113) and touches no other state. -/
def submitComplete (s : AppState) : AppState :=
  { s with name := [], dateTime := [], description := [] }

/-- The running balance (source lines 119-122): starts at 0 and adds
each fetched transaction price in turn. -/
def computeBalance (transactions : List ClientTransaction) : Int :=
  transactions.foldl (fun b t => b + t.price) 0

/-- The colour of the rendered balance (source line 129):
red when the balance is negative, green otherwise. -/
def balanceColor (transactions : List ClientTransaction) : JStr :=
  if computeBalance transactions < 0 then "red".toList else "green".toList

/-- Modelled from the spec: the browser blocks form submission while any
input marked required is empty; all three inputs of the form carry the
required attribute (source lines 137-162).  Submission proceeds exactly
when every required field is nonempty. -/
def formSubmitAllowed (s : AppState) : Bool :=
  !s.name.isEmpty && !s.dateTime.isEmpty && !s.description.isEmpty

/-- The submit path as the browser runs it: the POST payload is built
and sent only when the required-field constraint admits the form;
otherwise no network call happens. -/
def trySubmit (s : AppState) : Option PostPayload :=
  if formSubmitAllowed s then
    some (addNewTransaction s.name s.description s.dateTime)
  else none

/- ------------------------------------------------------------------ -/
/- API service: src/api/index.js                                      -/
/- ------------------------------------------------------------------ -/

/-- A JSON value as far as these routes inspect one. -/
inductive JVal where
  | str : JStr → JVal
  | num : Int → JVal
  | undef : JVal
deriving DecidableEq

/-- A JSON object: an association list of keys and values. -/
abbrev JObj := List (JStr × JVal)

/-- Reading a key from a JSON object, as object destructuring does:
the value stored under the key, or undefined when the key is absent. -/
def jget (o : JObj) (k : JStr) : JVal :=
  match o with
  | [] => JVal.undef
  | (k1, v) :: rest => if k1 = k then v else jget rest k

def kName : JStr := "name".toList
def kDescription : JStr := "description".toList
def kDateTime : JStr := "dateTime".toList
def kPrice : JStr := "price".toList

/-- The document the POST route hands to the store (source lines 73-81):
exactly the four fields destructured from the request body. -/
def transactionDocOf (body : JObj) : JObj :=
  [ (kName, jget body kName)
  , (kDescription, jget body kDescription)
  , (kDateTime, jget body kDateTime)
  , (kPrice, jget body kPrice) ]

/-- A document as the store keeps it: its fields plus the identifier the
store assigned on creation. -/
structure StoredDoc where
  oid : Nat
  fields : JObj
deriving DecidableEq

/-- Modelled from the spec: the document store behind the Mongoose
Transaction model (api/models/Transaction, external to these sources).
Per the spec it keeps one flat collection, assigns each created document
an opaque unique identifier, and determines the natural order of the
collection; creation appends and find returns the collection in that
order. -/
structure Store where
  docs : List StoredDoc
  nextId : Nat
deriving DecidableEq

/-- Modelled from the spec: Transaction.create inserts one document,
assigning it the next fresh identifier, and returns the created record. -/
def Store.create (st : Store) (doc : JObj) : Store × StoredDoc :=
  (⟨st.docs ++ [⟨st.nextId, doc⟩], st.nextId + 1⟩, ⟨st.nextId, doc⟩)

/-- Modelled from the spec: Transaction.find() returns the full
collection in its natural order. -/
def Store.findAll (st : Store) : List StoredDoc := st.docs

/-- A route response: res.json(body) on success, or
res.status(500).json({error: message}) from a catch block. -/
inductive ApiResponse (α : Type) where
  | ok : α → ApiResponse α
  | serverError : JStr → ApiResponse α
deriving DecidableEq

def fetchFailMsg : JStr := "Failed to fetch transactions".toList
def createFailMsg : JStr := "Failed to create transaction".toList

/-- GET /api/transaction (source lines 60-68): on success sends
Transaction.find() back as JSON; when the store call throws, the catch
block answers 500 with the fetch error payload.  The possibility of the
store throwing is the storeFails flag. -/
def getTransactionsHandler (st : Store) (storeFails : Bool) :
    ApiResponse (List StoredDoc) :=
  if storeFails then ApiResponse.serverError fetchFailMsg
  else ApiResponse.ok st.findAll

/-- POST /api/transaction (source lines 72-86): destructures the four
fields from the body, hands Transaction.create the document built from
them, sends the created record back as JSON; when the store call throws,
the catch block answers 500 with the create error payload. -/
def postTransactionHandler (st : Store) (body : JObj) (storeFails : Bool) :
    Store × ApiResponse StoredDoc :=
  if storeFails then (st, ApiResponse.serverError createFailMsg)
  else
    let created := st.create (transactionDocOf body)
    (created.1, ApiResponse.ok created.2)

/- ------------------------------------------------------------------ -/
/- Supporting lemmas                                                  -/
/- ------------------------------------------------------------------ -/

/-- The running balance started from any seed is the seed plus the sum
of the prices. -/
theorem foldl_price_eq_add_sum (l : List ClientTransaction) :
    ∀ b : Int, l.foldl (fun b t => b + t.price) b
      = b + (l.map (fun t => t.price)).sum := by
  induction l with
  | nil => intro b; simp
  | cons t rest ih =>
    intro b
    simp [List.foldl_cons, ih, add_assoc]

/-- Reading a key other than k is blind to an entry (k, v) spliced into
the object. -/
theorem jget_skip (b1 b2 : JObj) (k k1 : JStr) (v : JVal) (h : k ≠ k1) :
    jget (b1 ++ (k, v) :: b2) k1 = jget (b1 ++ b2) k1 := by
  induction b1 with
  | nil => simp [jget, h]
  | cons p rest ih =>
    cases p with
    | mk k2 v2 =>
      by_cases h2 : k2 = k1
      · simp [jget, h2]
      · simp [jget, h2, ih]

/- ------------------------------------------------------------------ -/
/- Claims                                                             -/
/- ------------------------------------------------------------------ -/

/-- Claim C1: whenever the leading space-delimited token of the combined
name input is a valid numeric literal, the price field of the posted
payload carries that token, so its numeric value is the token's numeric
value (a signed number), and the posted name field is the remainder of
the input after the first space. -/
theorem claim1_price_token_and_name_remainder (nm ds dt : JStr)
    (h : isNumericLit (nm.takeWhile (fun c => c != ' ')) = true) :
    numericVal (addNewTransaction nm ds dt).price
        = numericVal (nm.takeWhile (fun c => c != ' ')) ∧
    (addNewTransaction nm ds dt).price = nm.takeWhile (fun c => c != ' ') ∧
    (addNewTransaction nm ds dt).name = afterFirstSpace nm := by
  refine ⟨rfl, rfl, ?_⟩
  simpa [addNewTransaction] using drop_token_succ_eq_afterFirstSpace nm

/-- Witness for C1 at the input "20000 mobile". -/
theorem claim1_price_token_and_name_remainder_witness :
    isNumericLit (("20000 mobile".toList).takeWhile (fun c => c != ' ')) = true ∧
    (numericVal (addNewTransaction "20000 mobile".toList "d".toList "t".toList).price
        = numericVal (("20000 mobile".toList).takeWhile (fun c => c != ' ')) ∧
     (addNewTransaction "20000 mobile".toList "d".toList "t".toList).price
        = ("20000 mobile".toList).takeWhile (fun c => c != ' ') ∧
     (addNewTransaction "20000 mobile".toList "d".toList "t".toList).name
        = afterFirstSpace "20000 mobile".toList) :=
  ⟨by decide, claim1_price_token_and_name_remainder _ _ _ (by decide)⟩

/-- Claim C2: for every loaded transaction list the displayed balance is
the arithmetic sum of the prices (0 on the empty list), and the balance
is rendered red exactly when that sum is strictly negative. -/
theorem claim2_balance_sum_and_color (l : List ClientTransaction) :
    computeBalance l = (l.map (fun t => t.price)).sum ∧
    computeBalance [] = 0 ∧
    (balanceColor l = "red".toList ↔ (l.map (fun t => t.price)).sum < 0) := by
  have hsum : computeBalance l = (l.map (fun t => t.price)).sum := by
    simpa using foldl_price_eq_add_sum l 0
  refine ⟨hsum, rfl, ?_⟩
  unfold balanceColor
  rw [hsum]
  by_cases hneg : (l.map (fun t => t.price)).sum < 0
  · simp [hneg]
  · rw [if_neg hneg]
    constructor
    · intro hcontra
      exact absurd hcontra (by decide)
    · intro hlt
      exact absurd hlt hneg

/-- Claim C3: creating a transaction through the POST route (store
succeeding) and then listing through the GET route (store succeeding)
yields the full collection, which contains a record carrying the four
posted field values plus the store-assigned identifier, and that record
is the one the POST route echoed. -/
theorem claim3_post_then_get_roundtrip (st : Store) (nv dv tv pv : JVal) :
    ∃ rec : StoredDoc,
      (postTransactionHandler st
          [(kName, nv), (kDescription, dv), (kDateTime, tv), (kPrice, pv)] false).2
        = ApiResponse.ok rec ∧
      getTransactionsHandler
          (postTransactionHandler st
            [(kName, nv), (kDescription, dv), (kDateTime, tv), (kPrice, pv)] false).1
          false
        = ApiResponse.ok
            ((postTransactionHandler st
                [(kName, nv), (kDescription, dv), (kDateTime, tv), (kPrice, pv)]
                false).1.findAll) ∧
      rec ∈ (postTransactionHandler st
          [(kName, nv), (kDescription, dv), (kDateTime, tv), (kPrice, pv)]
          false).1.findAll ∧
      jget rec.fields kName = nv ∧
      jget rec.fields kDescription = dv ∧
      jget rec.fields kDateTime = tv ∧
      jget rec.fields kPrice = pv := by
  refine ⟨⟨st.nextId,
      transactionDocOf [(kName, nv), (kDescription, dv), (kDateTime, tv), (kPrice, pv)]⟩,
    rfl, rfl, ?_, ?_, ?_, ?_, ?_⟩
  · show _ ∈ st.docs ++ [_]
    exact List.mem_append_right _ (List.mem_singleton.mpr rfl)
  · simp [transactionDocOf, jget]
  · simp [transactionDocOf, jget,
      (by decide : kName ≠ kDescription)]
  · simp [transactionDocOf, jget,
      (by decide : kName ≠ kDateTime), (by decide : kDescription ≠ kDateTime)]
  · simp [transactionDocOf, jget,
      (by decide : kName ≠ kPrice), (by decide : kDescription ≠ kPrice),
      (by decide : kDateTime ≠ kPrice)]

/-- Claim C4: the GET route, when the store succeeds, answers the full
collection unchanged and in the store's natural order; when the store
fails it answers 500 with the fetch error payload; and no other shape of
response is possible. -/
theorem claim4_get_route_shape (st : Store) (b : Bool) :
    getTransactionsHandler st false = ApiResponse.ok st.findAll ∧
    st.findAll = st.docs ∧
    getTransactionsHandler st true = ApiResponse.serverError fetchFailMsg ∧
    (getTransactionsHandler st b = ApiResponse.ok st.findAll ∨
     getTransactionsHandler st b = ApiResponse.serverError fetchFailMsg) := by
  refine ⟨rfl, rfl, rfl, ?_⟩
  cases b
  · exact Or.inl rfl
  · exact Or.inr rfl

/-- Claim C5: the POST route builds its document from the four
destructured body fields verbatim with no validation of its own, echoes
the created record (with the store-assigned identifier) when the store
succeeds, answers 500 with the create error payload when the store
fails, and for every body one of those two responses happens. -/
theorem claim5_post_route_shape (st : Store) (body : JObj) (b : Bool) :
    transactionDocOf body
        = [ (kName, jget body kName)
          , (kDescription, jget body kDescription)
          , (kDateTime, jget body kDateTime)
          , (kPrice, jget body kPrice) ] ∧
    (postTransactionHandler st body false).2
        = ApiResponse.ok ⟨st.nextId, transactionDocOf body⟩ ∧
    (postTransactionHandler st body true).2
        = ApiResponse.serverError createFailMsg ∧
    ((∃ rec, (postTransactionHandler st body b).2 = ApiResponse.ok rec) ∨
     (postTransactionHandler st body b).2
        = ApiResponse.serverError createFailMsg) := by
  refine ⟨rfl, rfl, rfl, ?_⟩
  cases b
  · exact Or.inl ⟨_, rfl⟩
  · exact Or.inr rfl

/-- Claim C6: the submit-complete transition clears exactly the three
editable fields name, dateTime and description and leaves the in-memory
transactions list untouched. -/
theorem claim6_submit_complete_frame (s : AppState) :
    (submitComplete s).name = [] ∧
    (submitComplete s).dateTime = [] ∧
    (submitComplete s).description = [] ∧
    (submitComplete s).transactions = s.transactions :=
  ⟨rfl, rfl, rfl, rfl⟩

/-- Claim C7: when the combined name input has no space the whole input
becomes the price token and the posted label is empty. -/
theorem claim7_no_space_whole_input (nm ds dt : JStr) (h : ' ' ∉ nm) :
    (addNewTransaction nm ds dt).price = nm ∧
    (addNewTransaction nm ds dt).name = [] := by
  constructor
  · simpa [addNewTransaction] using token_eq_self_of_no_space nm h
  · show nm.drop ((nm.takeWhile (fun c => c != ' ')).length + 1) = []
    rw [token_eq_self_of_no_space nm h]
    exact List.drop_of_length_le (Nat.le_succ _)

/-- Witness for C7 at the input "-200": price is the whole input, whose
numeric value is -200, and the label is empty. -/
theorem claim7_no_space_whole_input_witness :
    ' ' ∉ "-200".toList ∧
    ((addNewTransaction "-200".toList "d".toList "t".toList).price = "-200".toList ∧
     (addNewTransaction "-200".toList "d".toList "t".toList).name = []) ∧
    numericVal "-200".toList = -200 :=
  ⟨by decide, claim7_no_space_whole_input _ _ _ (by decide), by decide⟩

/-- Claim C8: with an empty description or an empty dateTime the
required-field constraint stops submission before any network call:
no POST payload is produced. -/
theorem claim8_required_blocks_submit (s : AppState)
    (h : s.description = [] ∨ s.dateTime = []) :
    trySubmit s = none := by
  rcases h with h | h
  · simp [trySubmit, formSubmitAllowed, h]
  · simp [trySubmit, formSubmitAllowed, h]

/-- Witness for C8 at a state with a filled name and dateTime but an
empty description. -/
theorem claim8_required_blocks_submit_witness :
    (({ name := "20000 mobile".toList, description := [],
        dateTime := "2025-09-07T13:30".toList, transactions := [] } : AppState).description
        = []
      ∨ ({ name := "20000 mobile".toList, description := [],
           dateTime := "2025-09-07T13:30".toList, transactions := [] } : AppState).dateTime
        = []) ∧
    trySubmit { name := "20000 mobile".toList, description := [],
                dateTime := "2025-09-07T13:30".toList, transactions := [] } = none :=
  ⟨Or.inl rfl, claim8_required_blocks_submit _ (Or.inl rfl)⟩

/-- Claim C9: the document handed to the store is built from exactly the
four destructured fields; a body key other than those four, wherever it
sits in the body, changes nothing and is never persisted, the keys of
the stored document being exactly the four. -/
theorem claim9_extra_keys_ignored (b1 b2 : JObj) (k : JStr) (v : JVal)
    (h : k ≠ kName ∧ k ≠ kDescription ∧ k ≠ kDateTime ∧ k ≠ kPrice) :
    transactionDocOf (b1 ++ (k, v) :: b2) = transactionDocOf (b1 ++ b2) ∧
    (transactionDocOf (b1 ++ (k, v) :: b2)).map Prod.fst
        = [kName, kDescription, kDateTime, kPrice] := by
  obtain ⟨h1, h2, h3, h4⟩ := h
  constructor
  · simp [transactionDocOf, jget_skip b1 b2 k kName v h1,
      jget_skip b1 b2 k kDescription v h2,
      jget_skip b1 b2 k kDateTime v h3,
      jget_skip b1 b2 k kPrice v h4]
  · rfl

/-- Witness for C9: a body with an extra key between the known fields. -/
theorem claim9_extra_keys_ignored_witness :
    ("extra".toList ≠ kName ∧ "extra".toList ≠ kDescription ∧
     "extra".toList ≠ kDateTime ∧ "extra".toList ≠ kPrice) ∧
    (transactionDocOf
        ([(kName, JVal.str "mobile".toList)]
          ++ ("extra".toList, JVal.num 7) :: [(kPrice, JVal.num 20000)])
      = transactionDocOf ([(kName, JVal.str "mobile".toList)] ++ [(kPrice, JVal.num 20000)]) ∧
     (transactionDocOf
        ([(kName, JVal.str "mobile".toList)]
          ++ ("extra".toList, JVal.num 7) :: [(kPrice, JVal.num 20000)])).map Prod.fst
      = [kName, kDescription, kDateTime, kPrice]) :=
  ⟨by decide,
   claim9_extra_keys_ignored [(kName, JVal.str "mobile".toList)]
     [(kPrice, JVal.num 20000)] "extra".toList (JVal.num 7) (by decide)⟩

/-- Claim C10: when the combined name input contains a space, the posted
price token, one space, and the posted name concatenate back to the
original input: nothing is lost but the single separator. -/
theorem claim10_split_reassembles (nm ds dt : JStr) (h : ' ' ∈ nm) :
    (addNewTransaction nm ds dt).price ++ ' ' :: (addNewTransaction nm ds dt).name = nm := by
  have hn : (addNewTransaction nm ds dt).name = afterFirstSpace nm := by
    simpa [addNewTransaction] using drop_token_succ_eq_afterFirstSpace nm
  have hp : (addNewTransaction nm ds dt).price = nm.takeWhile (fun c => c != ' ') := rfl
  rw [hn, hp]
  exact token_space_remainder nm h

/-- Witness for C10 at the input "20000 mobile". -/
theorem claim10_split_reassembles_witness :
    ' ' ∈ "20000 mobile".toList ∧
    (addNewTransaction "20000 mobile".toList "d".toList "t".toList).price
        ++ ' ' :: (addNewTransaction "20000 mobile".toList "d".toList "t".toList).name
      = "20000 mobile".toList :=
  ⟨by decide, claim10_split_reassembles _ _ _ (by decide)⟩

end MoneyTracker
